import Mathlib

/-!
Verification development for the SmolDungeon combat-resolution core.

The definitions below are a shallow embedding of the Go resolver in
`src/apps/dm-go` (combat state machine, action handlers, turn advancer,
combat-end predicate).  Go `int` values are modelled as unbounded `Int`
(no computation in the resolver comes near the 64-bit range for the
inputs the spec talks about); Go integer division/remainder, which
truncate toward zero, are modelled with `Int.tdiv` / `Int.tmod`;
`math.Max` / `math.Min` on `float64`, applied by the Go code to small
integers, are modelled as exact `max` / `min` on `Int`.
-/

set_option maxRecDepth 4000

namespace SmolDungeon

/-- Opaque identifier (UUID-shaped string), from types.go. -/
abbrev ID := String

/-- Character stats, from types.go. -/
structure Stat where
  hp : Int := 0
  maxHp : Int := 0
  attack : Int := 0
  defense : Int := 0
  speed : Int := 0
deriving DecidableEq

/-- A 2D position, from types.go. -/
structure Position where
  x : Int := 0
  y : Int := 0
deriving DecidableEq

/-- A weapon, from types.go. -/
structure Weapon where
  id : ID := ""
  name : String := ""
  damage : Int := 0
  accuracy : Int := 0
deriving DecidableEq

/-- An ability, from types.go. -/
structure Ability where
  id : ID := ""
  name : String := ""
  cooldown : Int := 0
  effect : String := ""
  power : Int := 0
deriving DecidableEq

/-- An item, from types.go. -/
structure Item where
  id : ID := ""
  name : String := ""
  type : String := ""
  effect : String := ""
deriving DecidableEq

/-- A game character, from types.go.  The Go `map[string]int` of ability
cooldowns (zero-valued when a key is absent) is modelled as an
association list with default value 0. -/
structure Character where
  id : ID := ""
  name : String := ""
  stats : Stat := {}
  position : Position := {}
  weapons : List Weapon := []
  abilities : List Ability := []
  items : List Item := []
  abilityCooldowns : List (String × Int) := []
  isPlayer : Bool := false
deriving DecidableEq

/-- A game action, from types.go.  Go's zero value for absent `ID` fields
is the empty string. -/
structure Action where
  kind : String := ""
  attacker : ID := ""
  target : ID := ""
  weapon : ID := ""
  actor : ID := ""
  ability : ID := ""
  item : ID := ""
deriving DecidableEq

/-- A game event, from types.go; unset fields keep Go zero values. -/
structure Event where
  id : String := ""
  type : String := ""
  target : ID := ""
  amount : Int := 0
  source : ID := ""
  actor : ID := ""
  ability : ID := ""
  item : ID := ""
deriving DecidableEq

/-- The game state, from types.go. -/
structure State where
  round : Int := 0
  characters : List Character := []
  turnOrder : List ID := []
  currentTurn : Int := 0
  isComplete : Bool := false
  winner : Option String := none
deriving DecidableEq

/-- The result of applying an action, from types.go. -/
structure Resolution where
  events : List Event := []
  state : State := {}
  logs : List String := []
deriving DecidableEq

/-- Modelled from the spec: the generator inside Go's `math/rand.Rand` is
standard-library code that is not part of this repository.  Section 4.1 of
the spec pins only that the source is deterministic in the seed and in the
call sequence, and section 9 states that the concrete algorithm is left
unspecified, so the missing generator is modelled as a 64-bit
linear-congruential step satisfying that contract. -/
def rngStep (s : Nat) : Nat :=
  (s * 6364136223846793005 + 1442695040888963407) % (2 ^ 64)

/-- Seeded random number generator, from rng.go (state of the wrapped
standard-library source). -/
structure SeededRNG where
  state : Nat
deriving DecidableEq

/-- Creates a new seeded RNG, from rng.go. -/
def NewSeededRNG (seed : Int) : SeededRNG :=
  ⟨(seed.emod (2 ^ 64)).toNat⟩

/-- One draw in the half-open range [0, n), as Go's `Intn`. -/
def SeededRNG.Intn (r : SeededRNG) (n : Nat) : Int × SeededRNG :=
  let s := rngStep r.state
  (((s / 2 ^ 33) % n : Nat), ⟨s⟩)

/-- Rolls a d20 in [1, 20], from rng.go. -/
def SeededRNG.RollD20 (r : SeededRNG) : Int × SeededRNG :=
  let p := r.Intn 20
  (p.1 + 1, p.2)

/-- Rolls a d6 in [1, 6], from rng.go. -/
def SeededRNG.RollD6 (r : SeededRNG) : Int × SeededRNG :=
  let p := r.Intn 6
  (p.1 + 1, p.2)

/-- Reads an entry of the cooldown map; a missing key yields Go's zero
value 0. -/
def lookupCooldown : List (String × Int) → String → Int
  | [], _ => 0
  | (k', v) :: rest, k => if k' = k then v else lookupCooldown rest k

/-- Writes an entry of the cooldown map (Go map assignment). -/
def setCooldown : List (String × Int) → String → Int → List (String × Int)
  | [], k, v => [(k, v)]
  | (k', v') :: rest, k, v =>
      if k' = k then (k, v) :: rest else (k', v') :: setCooldown rest k v

/-- Finds the first character with the given id, as the pointer-returning
loop in `GetCharacterByID` (part_001). -/
def findChar : List Character → ID → Option Character
  | [], _ => none
  | c :: rest, i => if c.id = i then some c else findChar rest i

/-- GetCharacterByID finds a character by ID, from part_001. -/
def GetCharacterByID (s : State) (i : ID) : Option Character :=
  findChar s.characters i

/-- Replaces the first character with the given id, modelling a Go write
through the pointer returned by `GetCharacterByID`. -/
def updateFirst : List Character → ID → (Character → Character) → List Character
  | [], _, _ => []
  | c :: rest, i, f => if c.id = i then f c :: rest else c :: updateFirst rest i f

/-- Finds the first weapon with the given id (loop in handleAttack). -/
def findWeapon : List Weapon → ID → Option Weapon
  | [], _ => none
  | w :: rest, i => if w.id = i then some w else findWeapon rest i

/-- Finds the first ability with the given id (loop in handleAbility). -/
def findAbility : List Ability → ID → Option Ability
  | [], _ => none
  | ab :: rest, i => if ab.id = i then some ab else findAbility rest i

/-- Finds the index of the first item with the given id (loop in
handleUseItem). -/
def findItemIdx : List Item → ID → Option Nat
  | [], _ => none
  | it :: rest, i =>
      if it.id = i then some 0 else (findItemIdx rest i).map (· + 1)

/-- Checks whether the second char list occurs at the head of the first. -/
def startsWithChars : List Char → List Char → Bool
  | _, [] => true
  | [], _ :: _ => false
  | a :: as, b :: bs => a = b && startsWithChars as bs

/-- Checks whether a char list occurs anywhere inside another. -/
def hasSubChars : List Char → List Char → Bool
  | hay, needle =>
      startsWithChars hay needle ||
        match hay with
        | [] => false
        | _ :: rest => hasSubChars rest needle

/-- Substring test, as Go's `strings.Contains`. -/
def hasSubstr (hay needle : String) : Bool :=
  hasSubChars hay.data needle.data

/-- Decrements every positive cooldown entry by one (loop in advanceTurn). -/
def decayCooldowns (m : List (String × Int)) : List (String × Int) :=
  m.map (fun p => if p.2 > 0 then (p.1, p.2 - 1) else p)

/-- Per-character bookkeeping of advanceTurn: cooldown decay, then the
defense-bonus expiry heuristic (threshold 5, subtract 2, floor 0). -/
def advanceCharacter (c : Character) : Character :=
  let c1 : Character := { c with abilityCooldowns := decayCooldowns c.abilityCooldowns }
  if c1.stats.defense > 5 then
    { c1 with stats := { c1.stats with defense := max 0 (c1.stats.defense - 2) } }
  else c1

/-- Tests whether a character is a living member of the given side. -/
def isAlive (player : Bool) (c : Character) : Bool :=
  c.isPlayer == player && decide (c.stats.hp > 0)

/-- Counts living characters of one side (loop in advanceTurn). -/
def countAlive (cs : List Character) (player : Bool) : Nat :=
  (cs.filter (isAlive player)).length

/-- Clones the state; the Go code does this via a JSON marshal/unmarshal
round trip, which is the identity on the value model. -/
def deepCopyState (s : State) : State := s

/-- advanceTurn, from part_001: cooldown decay and defense expiry for every
character, win-condition check, then turn/round progression.  Go panics on
`% 0` when `turnOrder` is empty and combat is not complete; `Int.tmod _ 0`
totalizes that case. -/
def advanceTurn (s : State) : State :=
  let s1 : State := { deepCopyState s with characters := s.characters.map advanceCharacter }
  let alivePlayers := countAlive s1.characters true
  let aliveEnemies := countAlive s1.characters false
  let s2 : State :=
    if alivePlayers = 0 then { s1 with isComplete := true, winner := some "enemy" }
    else if aliveEnemies = 0 then { s1 with isComplete := true, winner := some "player" }
    else s1
  if s2.isComplete then s2
  else
    let ct := (s2.currentTurn + 1).tmod (s2.turnOrder.length : Int)
    { s2 with currentTurn := ct, round := if ct = 0 then s2.round + 1 else s2.round }

/-- handleAttack, from part_001. -/
def handleAttack (s : State) (a : Action) (rng : SeededRNG) (events : List Event)
    (logs : List String) : Resolution :=
  match GetCharacterByID s a.attacker, GetCharacterByID s a.target with
  | some attacker, some target =>
    let wl : Weapon × List String :=
      match findWeapon attacker.weapons a.weapon with
      | some w => (w, logs)
      | none => ({ id := "", name := "Fist", damage := 1, accuracy := 0 },
                 logs ++ ["Weapon not found - using default"])
    let weapon := wl.1
    let logs := wl.2
    let r1 := rng.RollD20
    let attackRoll := r1.1
    if attackRoll + attacker.stats.attack ≥ target.stats.defense + 10 then
      let baseDamage := weapon.damage + attacker.stats.attack.tdiv 2
      let r2 := r1.2.RollD6
      let totalDamage := max 1 (baseDamage + r2.1 - target.stats.defense)
      let newHp := max 0 (target.stats.hp - totalDamage)
      let chars1 := updateFirst s.characters a.target
        (fun c => { c with stats := { c.stats with hp := newHp } })
      let s1 : State := { s with characters := chars1 }
      let events := events ++
        [{ type := "damage", target := target.id, amount := totalDamage, source := attacker.id }]
      let logs := logs ++
        [attacker.name ++ " attacks " ++ target.name ++ " with " ++ weapon.name ++
          " for " ++ toString totalDamage ++ " damage!"]
      let events := if newHp = 0 then events ++ [{ type := "death", target := target.id }] else events
      let logs := if newHp = 0 then logs ++ [target.name ++ " has been defeated!"] else logs
      ⟨events, advanceTurn s1, logs⟩
    else
      ⟨events, advanceTurn s, logs ++ [attacker.name ++ " misses " ++ target.name ++ "!"]⟩
  | _, _ => ⟨events, s, logs ++ ["Invalid attack action"]⟩

/-- handleDefend, from part_001. -/
def handleDefend (s : State) (a : Action) (_rng : SeededRNG) (events : List Event)
    (logs : List String) : Resolution :=
  match GetCharacterByID s a.actor with
  | none => ⟨events, s, logs ++ ["Invalid defend action"]⟩
  | some character =>
    let chars1 := updateFirst s.characters a.actor
      (fun c => { c with stats := { c.stats with defense := c.stats.defense + 2 } })
    let s1 : State := { s with characters := chars1 }
    ⟨events, advanceTurn s1, logs ++ [character.name ++ " takes a defensive stance!"]⟩

/-- handleAbility, from part_001. -/
def handleAbility (s : State) (a : Action) (rng : SeededRNG) (events : List Event)
    (logs : List String) : Resolution :=
  match GetCharacterByID s a.actor with
  | none => ⟨events, s, logs ++ ["Invalid ability action"]⟩
  | some character =>
    match findAbility character.abilities a.ability with
    | none => ⟨events, s, logs ++ ["Ability not found"]⟩
    | some ability =>
      let cooldownKey := ability.id
      if lookupCooldown character.abilityCooldowns cooldownKey > 0 then
        ⟨events, s, logs ++ [ability.name ++ " is on cooldown!"]⟩
      else
        let chars1 := updateFirst s.characters a.actor
          (fun c => { c with
            abilityCooldowns := setCooldown c.abilityCooldowns cooldownKey ability.cooldown })
        let s1 : State := { s with characters := chars1 }
        let events := events ++
          [{ type := "ability_used", actor := character.id, ability := ability.id,
             target := a.target }]
        let sel : State × List Event × List String :=
          if ability.effect = "damage" then
            if a.target ≠ "" then
              match GetCharacterByID s1 a.target with
              | some target =>
                let r := rng.RollD6
                let damage := ability.power + r.1
                let newHp := max 0 (target.stats.hp - damage)
                let chars2 := updateFirst s1.characters a.target
                  (fun c => { c with stats := { c.stats with hp := newHp } })
                let s2 : State := { s1 with characters := chars2 }
                let events := events ++
                  [{ type := "damage", target := target.id, amount := damage,
                     source := character.id }]
                let logs := logs ++
                  [character.name ++ " uses " ++ ability.name ++ " on " ++ target.name ++
                    " for " ++ toString damage ++ " damage!"]
                let events :=
                  if newHp = 0 then events ++ [{ type := "death", target := target.id }]
                  else events
                let logs :=
                  if newHp = 0 then logs ++ [target.name ++ " has been defeated!"] else logs
                (s2, events, logs)
              | none => (s1, events, logs)
            else (s1, events, logs)
          else if ability.effect = "heal" then
            let r := rng.RollD6
            let healAmount := ability.power + r.1
            let chars2 := updateFirst s1.characters a.actor
              (fun c => { c with stats :=
                { c.stats with hp := min c.stats.maxHp (c.stats.hp + healAmount) } })
            let s2 : State := { s1 with characters := chars2 }
            let events := events ++
              [{ type := "heal", target := character.id, amount := healAmount }]
            let logs := logs ++
              [character.name ++ " uses " ++ ability.name ++ " and heals for " ++
                toString healAmount ++ " HP!"]
            (s2, events, logs)
          else (s1, events, logs)
        ⟨sel.2.1, advanceTurn sel.1, sel.2.2⟩

/-- handleUseItem, from part_001.  In Go, `item` is a pointer into the
inventory's backing array at the found index; the in-place splice that
removes the item shifts the following elements left, so the later reads of
`item.ID` and `item.Name` observe the element now sitting at that index
(the next item), or the removed element when it was last. -/
def handleUseItem (s : State) (a : Action) (rng : SeededRNG) (events : List Event)
    (logs : List String) : Resolution :=
  match GetCharacterByID s a.actor with
  | none => ⟨events, s, logs ++ ["Invalid item action"]⟩
  | some character =>
    match findItemIdx character.items a.item with
    | none => ⟨events, s, logs ++ ["Item not found"]⟩
    | some idx =>
      let itemsAfter := character.items.eraseIdx idx
      let itemRead : Item :=
        match itemsAfter[idx]? with
        | some it => it
        | none => (character.items[idx]?).getD {}
      let chars1 := updateFirst s.characters a.actor
        (fun c => { c with items := c.items.eraseIdx idx })
      let s1 : State := { s with characters := chars1 }
      let events := events ++
        [{ type := "item_used", actor := character.id, item := itemRead.id }]
      if hasSubstr itemRead.name "Potion" then
        let r := rng.RollD6
        let healAmount := 20 + r.1
        let chars2 := updateFirst s1.characters a.actor
          (fun c => { c with stats :=
            { c.stats with hp := min c.stats.maxHp (c.stats.hp + healAmount) } })
        let s2 : State := { s1 with characters := chars2 }
        let events := events ++
          [{ type := "heal", target := character.id, amount := healAmount }]
        let logs := logs ++
          [character.name ++ " uses " ++ itemRead.name ++ " and heals for " ++
            toString healAmount ++ " HP!"]
        ⟨events, advanceTurn s2, logs⟩
      else
        ⟨events, advanceTurn s1, logs⟩

/-- handleFlee, from part_001.  On success the Go code rebuilds the state
with `IsComplete: true` and always `winner := "player"`, bypassing
advanceTurn. -/
def handleFlee (s : State) (a : Action) (rng : SeededRNG) (events : List Event)
    (logs : List String) : Resolution :=
  match GetCharacterByID s a.actor with
  | none => ⟨events, s, logs ++ ["Invalid flee action"]⟩
  | some character =>
    let r := rng.RollD20
    if r.1 + character.stats.speed ≥ 15 then
      let events := events ++ [{ type := "flee", actor := character.id }]
      let logs := logs ++ [character.name ++ " successfully flees from combat!"]
      ⟨events,
       { round := s.round, characters := s.characters, turnOrder := s.turnOrder,
         currentTurn := s.currentTurn, isComplete := true, winner := some "player" },
       logs⟩
    else
      ⟨events, advanceTurn s, logs ++ [character.name ++ " fails to flee!"]⟩

/-- getActorID, from part_001 (the Go switch is rendered as an if-chain). -/
def getActorID (a : Action) : ID :=
  if a.kind = "Attack" then a.attacker
  else if a.kind = "Defend" ∨ a.kind = "Ability" ∨ a.kind = "UseItem" ∨ a.kind = "Flee" then
    a.actor
  else ""

/-- The recognized action kinds, from part_001. -/
def validKinds : List String := ["Attack", "Defend", "Ability", "UseItem", "Flee"]

/-- ApplyAction, from part_001: clones the state, validates the actor and
the action kind, dispatches to the handler. -/
def ApplyAction (s : State) (a : Action) (seed : Int) : Resolution :=
  let rng := NewSeededRNG seed
  let events : List Event := []
  let logs : List String := ["Actor bypass: Direct mutation used"]
  let newState := deepCopyState s
  match GetCharacterByID newState (getActorID a) with
  | none => ⟨events, s, logs ++ ["Invalid action: character not found"]⟩
  | some _ =>
    if validKinds.contains a.kind then
      if a.kind = "Attack" then handleAttack newState a rng events logs
      else if a.kind = "Defend" then handleDefend newState a rng events logs
      else if a.kind = "Ability" then handleAbility newState a rng events logs
      else if a.kind = "UseItem" then handleUseItem newState a rng events logs
      else if a.kind = "Flee" then handleFlee newState a rng events logs
      else ⟨events, s, logs ++ ["Unknown action kind"]⟩
    else ⟨events, s, logs ++ ["Invalid action kind"]⟩

/-- CheckCombatEnd, from part_001. -/
def CheckCombatEnd (s : State) : Bool :=
  s.isComplete || decide (s.round ≥ 20)

/-- The first d20 drawn from a fresh RNG with the given seed (the attack
roll of handleAttack, or the flee roll of handleFlee). -/
def firstD20 (n : Int) : Int := ((NewSeededRNG n).RollD20).1

/-- The d6 drawn after one d20 from a fresh RNG with the given seed (the
damage roll of handleAttack). -/
def d6AfterD20 (n : Int) : Int := (((NewSeededRNG n).RollD20).2.RollD6).1

/-- The first d6 drawn from a fresh RNG with the given seed (the roll of
the ability damage/heal branches and of the Potion heal). -/
def firstD6 (n : Int) : Int := ((NewSeededRNG n).RollD6).1

/-- Iterated Turn Advancer. -/
def advanceTurnIter : Nat → State → State
  | 0, s => s
  | k + 1, s => advanceTurnIter k (advanceTurn s)

/-- One step of driving an encounter with a fixed action-selection policy:
the policy picks the action and the seed from the current state, and the
state of the returned Resolution becomes the next state. -/
def stepPol (pol : State → Action × Int) (s : State) : State :=
  (ApplyAction s (pol s).1 (pol s).2).state

/-- The state after driving k actions of the policy from s0. -/
def drive (pol : State → Action × Int) (s0 : State) : Nat → State
  | 0 => s0
  | k + 1 => stepPol pol (drive pol s0 k)

/-!
Heap model of the same resolver, used to state the frame property (the Go
code mutates characters through pointers into slice backing arrays; the
value model above cannot talk about which cells a call writes).  A heap is
a list of character cells and a Go `*Character` is a cell index; the
state's `characters` slice is the list of its cell indices.  Writes happen
with `hwrite`; `deepCopyStateH` (the JSON round trip) allocates fresh
cells, exactly as the Go clone produces a disjoint backing array.
-/

/-- Heap of character cells. -/
abbrev Heap := List Character

/-- Reads a cell (a Go pointer dereference). -/
def hread (h : Heap) (ad : Nat) : Character := (h[ad]?).getD {}

/-- Writes a cell (a Go write through a pointer). -/
def hwrite (h : Heap) (ad : Nat) (c : Character) : Heap := h.set ad c

/-- The game state with characters as heap addresses. -/
structure HState where
  round : Int := 0
  characters : List Nat := []
  turnOrder : List ID := []
  currentTurn : Int := 0
  isComplete : Bool := false
  winner : Option String := none
deriving DecidableEq

/-- A resolution over the heap-model state. -/
structure HResolution where
  events : List Event := []
  state : HState := {}
  logs : List String := []
deriving DecidableEq

/-- Allocates one fresh cell per character value, returning the new heap
and the fresh addresses. -/
def allocList (h : Heap) (cs : List Character) : Heap × List Nat :=
  match cs with
  | [] => (h, [])
  | c :: rest =>
    let r := allocList (h ++ [c]) rest
    (r.1, h.length :: r.2)

/-- deepCopyState on the heap model: the JSON round trip yields fresh
cells holding copies of every character value. -/
def deepCopyStateH (h : Heap) (s : HState) : Heap × HState :=
  let r := allocList h (s.characters.map (hread h))
  (r.1, { s with characters := r.2 })

/-- GetCharacterByID on the heap model: the Go pointer is the address of
the first character whose id matches. -/
def GetCharacterByIDH (h : Heap) (s : HState) (i : ID) : Option Nat :=
  s.characters.find? (fun ad => (hread h ad).id == i)

/-- The cooldown-decay/defense-expiry loop of advanceTurn, writing every
listed cell. -/
def decayAll (h : Heap) : List Nat → Heap
  | [] => h
  | ad :: rest => decayAll (hwrite h ad (advanceCharacter (hread h ad))) rest

/-- advanceTurn on the heap model: clone, mutate the fresh cells, check
the win condition, progress turn and round. -/
def advanceTurnH (h : Heap) (s : HState) : Heap × HState :=
  let r := deepCopyStateH h s
  let h1 := decayAll r.1 r.2.characters
  let s1 := r.2
  let alivePlayers := countAlive (s1.characters.map (hread h1)) true
  let aliveEnemies := countAlive (s1.characters.map (hread h1)) false
  let s2 : HState :=
    if alivePlayers = 0 then { s1 with isComplete := true, winner := some "enemy" }
    else if aliveEnemies = 0 then { s1 with isComplete := true, winner := some "player" }
    else s1
  if s2.isComplete then (h1, s2)
  else
    let ct := (s2.currentTurn + 1).tmod (s2.turnOrder.length : Int)
    (h1, { s2 with currentTurn := ct, round := if ct = 0 then s2.round + 1 else s2.round })

/-- handleAttack on the heap model. -/
def handleAttackH (h : Heap) (s : HState) (a : Action) (rng : SeededRNG)
    (events : List Event) (logs : List String) : Heap × HResolution :=
  match GetCharacterByIDH h s a.attacker, GetCharacterByIDH h s a.target with
  | some aad, some tad =>
    let attacker := hread h aad
    let target := hread h tad
    let wl : Weapon × List String :=
      match findWeapon attacker.weapons a.weapon with
      | some w => (w, logs)
      | none => ({ id := "", name := "Fist", damage := 1, accuracy := 0 },
                 logs ++ ["Weapon not found - using default"])
    let weapon := wl.1
    let logs := wl.2
    let r1 := rng.RollD20
    if r1.1 + attacker.stats.attack ≥ target.stats.defense + 10 then
      let baseDamage := weapon.damage + attacker.stats.attack.tdiv 2
      let r2 := r1.2.RollD6
      let totalDamage := max 1 (baseDamage + r2.1 - target.stats.defense)
      let newHp := max 0 (target.stats.hp - totalDamage)
      let h1 := hwrite h tad { target with stats := { target.stats with hp := newHp } }
      let events := events ++
        [{ type := "damage", target := target.id, amount := totalDamage, source := attacker.id }]
      let logs := logs ++
        [attacker.name ++ " attacks " ++ target.name ++ " with " ++ weapon.name ++
          " for " ++ toString totalDamage ++ " damage!"]
      let events := if newHp = 0 then events ++ [{ type := "death", target := target.id }] else events
      let logs := if newHp = 0 then logs ++ [target.name ++ " has been defeated!"] else logs
      let r := advanceTurnH h1 s
      (r.1, ⟨events, r.2, logs⟩)
    else
      let r := advanceTurnH h s
      (r.1, ⟨events, r.2, logs ++ [attacker.name ++ " misses " ++ target.name ++ "!"]⟩)
  | _, _ => (h, ⟨events, s, logs ++ ["Invalid attack action"]⟩)

/-- handleDefend on the heap model. -/
def handleDefendH (h : Heap) (s : HState) (a : Action) (_rng : SeededRNG)
    (events : List Event) (logs : List String) : Heap × HResolution :=
  match GetCharacterByIDH h s a.actor with
  | none => (h, ⟨events, s, logs ++ ["Invalid defend action"]⟩)
  | some aad =>
    let character := hread h aad
    let h1 := hwrite h aad
      { character with stats := { character.stats with defense := character.stats.defense + 2 } }
    let r := advanceTurnH h1 s
    (r.1, ⟨events, r.2, logs ++ [character.name ++ " takes a defensive stance!"]⟩)

/-- handleAbility on the heap model. -/
def handleAbilityH (h : Heap) (s : HState) (a : Action) (rng : SeededRNG)
    (events : List Event) (logs : List String) : Heap × HResolution :=
  match GetCharacterByIDH h s a.actor with
  | none => (h, ⟨events, s, logs ++ ["Invalid ability action"]⟩)
  | some aad =>
    let character := hread h aad
    match findAbility character.abilities a.ability with
    | none => (h, ⟨events, s, logs ++ ["Ability not found"]⟩)
    | some ability =>
      if lookupCooldown character.abilityCooldowns ability.id > 0 then
        (h, ⟨events, s, logs ++ [ability.name ++ " is on cooldown!"]⟩)
      else
        let h1 := hwrite h aad { character with
          abilityCooldowns := setCooldown character.abilityCooldowns ability.id ability.cooldown }
        let events := events ++
          [{ type := "ability_used", actor := character.id, ability := ability.id,
             target := a.target }]
        let sel : Heap × List Event × List String :=
          if ability.effect = "damage" then
            if a.target ≠ "" then
              match GetCharacterByIDH h1 s a.target with
              | some tad =>
                let target := hread h1 tad
                let r := rng.RollD6
                let damage := ability.power + r.1
                let newHp := max 0 (target.stats.hp - damage)
                let h2 := hwrite h1 tad { target with stats := { target.stats with hp := newHp } }
                let events := events ++
                  [{ type := "damage", target := target.id, amount := damage,
                     source := character.id }]
                let logs := logs ++
                  [character.name ++ " uses " ++ ability.name ++ " on " ++ target.name ++
                    " for " ++ toString damage ++ " damage!"]
                let events :=
                  if newHp = 0 then events ++ [{ type := "death", target := target.id }]
                  else events
                let logs :=
                  if newHp = 0 then logs ++ [target.name ++ " has been defeated!"] else logs
                (h2, events, logs)
              | none => (h1, events, logs)
            else (h1, events, logs)
          else if ability.effect = "heal" then
            let ch1 := hread h1 aad
            let r := rng.RollD6
            let healAmount := ability.power + r.1
            let h2 := hwrite h1 aad { ch1 with
              stats := { ch1.stats with hp := min ch1.stats.maxHp (ch1.stats.hp + healAmount) } }
            let events := events ++
              [{ type := "heal", target := character.id, amount := healAmount }]
            let logs := logs ++
              [character.name ++ " uses " ++ ability.name ++ " and heals for " ++
                toString healAmount ++ " HP!"]
            (h2, events, logs)
          else (h1, events, logs)
        let r := advanceTurnH sel.1 s
        (r.1, ⟨sel.2.1, r.2, sel.2.2⟩)

/-- handleUseItem on the heap model. -/
def handleUseItemH (h : Heap) (s : HState) (a : Action) (rng : SeededRNG)
    (events : List Event) (logs : List String) : Heap × HResolution :=
  match GetCharacterByIDH h s a.actor with
  | none => (h, ⟨events, s, logs ++ ["Invalid item action"]⟩)
  | some aad =>
    let character := hread h aad
    match findItemIdx character.items a.item with
    | none => (h, ⟨events, s, logs ++ ["Item not found"]⟩)
    | some idx =>
      let itemsAfter := character.items.eraseIdx idx
      let itemRead : Item :=
        match itemsAfter[idx]? with
        | some it => it
        | none => (character.items[idx]?).getD {}
      let h1 := hwrite h aad { character with items := itemsAfter }
      let events := events ++
        [{ type := "item_used", actor := character.id, item := itemRead.id }]
      if hasSubstr itemRead.name "Potion" then
        let ch1 := hread h1 aad
        let r := rng.RollD6
        let healAmount := 20 + r.1
        let h2 := hwrite h1 aad { ch1 with
          stats := { ch1.stats with hp := min ch1.stats.maxHp (ch1.stats.hp + healAmount) } }
        let events := events ++
          [{ type := "heal", target := character.id, amount := healAmount }]
        let logs := logs ++
          [character.name ++ " uses " ++ itemRead.name ++ " and heals for " ++
            toString healAmount ++ " HP!"]
        let r2 := advanceTurnH h2 s
        (r2.1, ⟨events, r2.2, logs⟩)
      else
        let r2 := advanceTurnH h1 s
        (r2.1, ⟨events, r2.2, logs⟩)

/-- handleFlee on the heap model (no writes at all). -/
def handleFleeH (h : Heap) (s : HState) (a : Action) (rng : SeededRNG)
    (events : List Event) (logs : List String) : Heap × HResolution :=
  match GetCharacterByIDH h s a.actor with
  | none => (h, ⟨events, s, logs ++ ["Invalid flee action"]⟩)
  | some aad =>
    let character := hread h aad
    let r := rng.RollD20
    if r.1 + character.stats.speed ≥ 15 then
      let events := events ++ [{ type := "flee", actor := character.id }]
      let logs := logs ++ [character.name ++ " successfully flees from combat!"]
      (h, ⟨events,
        { round := s.round, characters := s.characters, turnOrder := s.turnOrder,
          currentTurn := s.currentTurn, isComplete := true, winner := some "player" },
        logs⟩)
    else
      let r2 := advanceTurnH h s
      (r2.1, ⟨events, r2.2, logs ++ [character.name ++ " fails to flee!"]⟩)

/-- ApplyAction on the heap model: the caller's state keeps its own cell
addresses; the clone gets fresh ones and only those are ever written. -/
def ApplyActionH (h : Heap) (s : HState) (a : Action) (seed : Int) : Heap × HResolution :=
  let rng := NewSeededRNG seed
  let events : List Event := []
  let logs : List String := ["Actor bypass: Direct mutation used"]
  let r := deepCopyStateH h s
  let h1 := r.1
  let newState := r.2
  match GetCharacterByIDH h1 newState (getActorID a) with
  | none => (h1, ⟨events, s, logs ++ ["Invalid action: character not found"]⟩)
  | some _ =>
    if validKinds.contains a.kind then
      if a.kind = "Attack" then handleAttackH h1 newState a rng events logs
      else if a.kind = "Defend" then handleDefendH h1 newState a rng events logs
      else if a.kind = "Ability" then handleAbilityH h1 newState a rng events logs
      else if a.kind = "UseItem" then handleUseItemH h1 newState a rng events logs
      else if a.kind = "Flee" then handleFleeH h1 newState a rng events logs
      else (h1, ⟨events, s, logs ++ ["Unknown action kind"]⟩)
    else (h1, ⟨events, s, logs ++ ["Invalid action kind"]⟩)

/-- Heap extension: every cell of the smaller heap survives unchanged. -/
def HeapExt (h0 h : Heap) : Prop :=
  h0.length ≤ h.length ∧ h.take h0.length = h0

/-- All of a state's cell addresses lie at or above the given bound. -/
def FreshFor (n : Nat) (s : HState) : Prop :=
  ∀ ad ∈ s.characters, n ≤ ad

/-! Concrete fixtures used by witnesses and counterexamples. -/

/-- A sample player character. -/
def hero : Character :=
  { id := "hero", name := "Hero",
    stats := { hp := 30, maxHp := 30, attack := 5, defense := 3, speed := 4 },
    weapons := [{ id := "sword", name := "Sword", damage := 6, accuracy := 85 }],
    abilities := [{ id := "ab1", name := "Power Strike", cooldown := 3,
                    effect := "buff", power := 8 }],
    items := [{ id := "pot", name := "Health Potion", type := "consumable",
                effect := "heal" }],
    abilityCooldowns := [], isPlayer := true }

/-- A sample enemy character. -/
def goblin : Character :=
  { id := "gob", name := "Goblin",
    stats := { hp := 15, maxHp := 15, attack := 3, defense := 2, speed := 2 },
    weapons := [{ id := "club", name := "Club", damage := 3, accuracy := 70 }],
    abilities := [], items := [], abilityCooldowns := [], isPlayer := false }

/-- A sample two-character encounter state. -/
def baseState : State :=
  { round := 1, characters := [hero, goblin], turnOrder := ["hero", "gob"],
    currentTurn := 0, isComplete := false, winner := none }

/-- An attack of the hero on the goblin. -/
def atkAct : Action :=
  { kind := "Attack", attacker := "hero", target := "gob", weapon := "sword" }

/-- A very fast player character, as in the spec's flee scenario. -/
def speedster : Character :=
  { hero with id := "spd", name := "Speedster",
              stats := { hp := 30, maxHp := 30, attack := 5, defense := 3, speed := 100 } }

/-- An encounter in which the fast player may flee. -/
def fleeState : State :=
  { round := 1, characters := [speedster, goblin], turnOrder := ["spd", "gob"],
    currentTurn := 0, isComplete := false, winner := none }

/-- The fast player attempts to flee. -/
def fleeAct : Action := { kind := "Flee", actor := "spd" }

/-- A character holding a heal ability of negative power. -/
def cursedHealer : Character :=
  { id := "cur", name := "Cursed", isPlayer := true,
    stats := { hp := 5, maxHp := 10, attack := 1, defense := 1, speed := 1 },
    abilities := [{ id := "curse", name := "Cursed Chant", cooldown := 0,
                    effect := "heal", power := -100 }] }

/-- An encounter containing only the cursed healer. -/
def cursedState : State :=
  { round := 1, characters := [cursedHealer], turnOrder := ["cur"],
    currentTurn := 0, isComplete := false, winner := none }

/-- The cursed healer uses the negative-power heal ability. -/
def cursedAct : Action := { kind := "Ability", actor := "cur", ability := "curse" }

/-- The hero uses the Power Strike ability. -/
def abilityAct : Action := { kind := "Ability", actor := "hero", ability := "ab1" }

/-- The hero with Power Strike still cooling down. -/
def cooledHero : Character := { hero with abilityCooldowns := [("ab1", 2)] }

/-- An encounter whose player's ability is on cooldown. -/
def cooledState : State :=
  { round := 1, characters := [cooledHero, goblin], turnOrder := ["hero", "gob"],
    currentTurn := 0, isComplete := false, winner := none }

/-- An action naming an actor id absent from the encounter. -/
def missingAct : Action := { kind := "Defend", actor := "nobody" }

/-- The constant policy that always submits the absent-actor action. -/
def stallPolicy : State → Action × Int := fun _ => (missingAct, 0)

/-- The constant policy that always has the hero defend. -/
def defendPolicy : State → Action × Int := fun _ => ({ kind := "Defend", actor := "hero" }, 0)

/-- A one-character encounter used to drive the defend policy. -/
def soloState : State :=
  { round := 1, characters := [hero], turnOrder := ["hero"],
    currentTurn := 0, isComplete := false, winner := none }

/-- A flee attempt by the goblin (an enemy). -/
def fleeActGob : Action := { kind := "Flee", actor := "gob" }

/-- The hero's sword, as it sits in the fixture inventory. -/
def swordW : Weapon := { id := "sword", name := "Sword", damage := 6, accuracy := 85 }

/-- The hero's Power Strike ability literal. -/
def powerStrike : Ability :=
  { id := "ab1", name := "Power Strike", cooldown := 3, effect := "buff", power := 8 }

/-- Hit-point well-formedness of one character. -/
def hpOk (c : Character) : Prop :=
  0 ≤ c.stats.hp ∧ c.stats.hp ≤ c.stats.maxHp

instance (c : Character) : Decidable (hpOk c) := by
  unfold hpOk
  infer_instance

/-- A concrete two-cell heap holding the fixture characters. -/
def heapFix : Heap := [hero, goblin]

/-- The fixture encounter as a heap-model state (cell addresses 0 and 1). -/
def hstateFix : HState :=
  { round := 1, characters := [0, 1], turnOrder := ["hero", "gob"],
    currentTurn := 0, isComplete := false, winner := none }

end SmolDungeon

namespace SmolDungeon

/-! Logs-prefix lemmas: every handler only appends to the log list it is
given. -/

theorem handleAttack_logs (s : State) (a : Action) (rng : SeededRNG)
    (es : List Event) (ls : List String) :
    (handleAttack s a rng es ls).logs.take ls.length = ls := by
  unfold handleAttack
  dsimp only
  repeat' split
  all_goals simp [List.append_assoc, List.take_left]

theorem handleDefend_logs (s : State) (a : Action) (rng : SeededRNG)
    (es : List Event) (ls : List String) :
    (handleDefend s a rng es ls).logs.take ls.length = ls := by
  unfold handleDefend
  dsimp only
  repeat' split
  all_goals simp [List.append_assoc, List.take_left]

theorem handleAbility_logs (s : State) (a : Action) (rng : SeededRNG)
    (es : List Event) (ls : List String) :
    (handleAbility s a rng es ls).logs.take ls.length = ls := by
  unfold handleAbility
  dsimp only
  repeat' split
  all_goals simp [List.append_assoc, List.take_left]

theorem handleUseItem_logs (s : State) (a : Action) (rng : SeededRNG)
    (es : List Event) (ls : List String) :
    (handleUseItem s a rng es ls).logs.take ls.length = ls := by
  unfold handleUseItem
  dsimp only
  repeat' split
  all_goals simp [List.append_assoc, List.take_left]

theorem handleFlee_logs (s : State) (a : Action) (rng : SeededRNG)
    (es : List Event) (ls : List String) :
    (handleFlee s a rng es ls).logs.take ls.length = ls := by
  unfold handleFlee
  dsimp only
  repeat' split
  all_goals simp [List.append_assoc, List.take_left]

theorem head_eq_of_take_one {l : List String} {x : String}
    (h : l.take 1 = [x]) : l.head? = some x ∧ l ≠ [] := by
  cases l with
  | nil => simp at h
  | cons a t =>
    simp only [List.take_succ_cons, List.take_zero, List.cons.injEq, and_true] at h
    subst h
    exact ⟨rfl, by simp⟩

/-- C10: for every state, action and seed, the logs of the Resolution
returned by the Go ApplyAction are non-empty and begin with the line
"Actor bypass: Direct mutation used", preceding any handler or error log
line, including in the soft-failure cases. -/
theorem applyAction_logs_start_with_bypass (s : State) (a : Action) (n : Int) :
    (ApplyAction s a n).logs.head? = some "Actor bypass: Direct mutation used" ∧
    (ApplyAction s a n).logs ≠ [] := by
  apply head_eq_of_take_one
  unfold ApplyAction
  dsimp only [deepCopyState]
  repeat' split
  all_goals first
    | exact handleAttack_logs s a (NewSeededRNG n) [] ["Actor bypass: Direct mutation used"]
    | exact handleDefend_logs s a (NewSeededRNG n) [] ["Actor bypass: Direct mutation used"]
    | exact handleAbility_logs s a (NewSeededRNG n) [] ["Actor bypass: Direct mutation used"]
    | exact handleUseItem_logs s a (NewSeededRNG n) [] ["Actor bypass: Direct mutation used"]
    | exact handleFlee_logs s a (NewSeededRNG n) [] ["Actor bypass: Direct mutation used"]
    | rfl

/-- C1: the resolution function is deterministic: called twice on
structurally equal state, action and seed, ApplyAction returns structurally
equal events, logs and resulting state. -/
theorem applyAction_deterministic (s1 s2 : State) (a1 a2 : Action) (n1 n2 : Int)
    (hs : s1 = s2) (ha : a1 = a2) (hn : n1 = n2) :
    (ApplyAction s1 a1 n1).events = (ApplyAction s2 a2 n2).events ∧
    (ApplyAction s1 a1 n1).logs = (ApplyAction s2 a2 n2).logs ∧
    (ApplyAction s1 a1 n1).state = (ApplyAction s2 a2 n2).state := by
  subst hs; subst ha; subst hn
  exact ⟨rfl, rfl, rfl⟩

theorem applyAction_deterministic_witness :
    (ApplyAction baseState atkAct 1).events = (ApplyAction baseState atkAct 1).events ∧
    (ApplyAction baseState atkAct 1).logs = (ApplyAction baseState atkAct 1).logs ∧
    (ApplyAction baseState atkAct 1).state = (ApplyAction baseState atkAct 1).state :=
  applyAction_deterministic baseState baseState atkAct atkAct 1 1 rfl rfl rfl

/-- C5: when the action names an actor id absent from the state, the
resolver does not panic: it returns a Resolution with no events, the
original state unmodified, and logs reporting the character-not-found
failure. -/
theorem applyAction_actor_missing (s : State) (a : Action) (n : Int)
    (h : GetCharacterByID s (getActorID a) = none) :
    ApplyAction s a n =
      ⟨[], s, ["Actor bypass: Direct mutation used", "Invalid action: character not found"]⟩ := by
  unfold ApplyAction
  dsimp only [deepCopyState]
  rw [h]
  rfl

theorem applyAction_actor_missing_witness :
    GetCharacterByID baseState (getActorID missingAct) = none ∧
    ApplyAction baseState missingAct 0 =
      ⟨[], baseState, ["Actor bypass: Direct mutation used", "Invalid action: character not found"]⟩ :=
  ⟨by decide, applyAction_actor_missing baseState missingAct 0 (by decide)⟩

/-- C7: an Ability action whose ability is still on cooldown soft-fails:
the returned state is structurally equal to the input state, no event is
emitted, an on-cooldown log line is produced, and the turn is not
advanced. -/
theorem applyAction_ability_on_cooldown (s : State) (a : Action) (n : Int)
    (character : Character) (ability : Ability)
    (hk : a.kind = "Ability")
    (hc : GetCharacterByID s a.actor = some character)
    (hab : findAbility character.abilities a.ability = some ability)
    (hcd : lookupCooldown character.abilityCooldowns ability.id > 0) :
    ApplyAction s a n =
      ⟨[], s, ["Actor bypass: Direct mutation used", ability.name ++ " is on cooldown!"]⟩ := by
  simp [ApplyAction, handleAbility, deepCopyState, getActorID, hk, hc, hab, hcd, validKinds]

theorem applyAction_ability_on_cooldown_witness :
    ApplyAction cooledState abilityAct 0 =
      ⟨[], cooledState, ["Actor bypass: Direct mutation used", "Power Strike is on cooldown!"]⟩ :=
  applyAction_ability_on_cooldown cooledState abilityAct 0 cooledHero
    { id := "ab1", name := "Power Strike", cooldown := 3, effect := "buff", power := 8 }
    rfl (by decide) (by decide) (by decide)

end SmolDungeon

namespace SmolDungeon


/-- C2 counterexample: a player (the speedster, speed 100) flees
successfully, yet the Go resolver sets winner to "player", not to the
opposing side "enemy" as the claim states. -/
theorem flee_winner_cex :
    (ApplyAction fleeState fleeAct 1).events = [{ type := "flee", actor := "spd" }] ∧
    (GetCharacterByID fleeState fleeAct.actor).map (fun c => c.isPlayer) = some true ∧
    (ApplyAction fleeState fleeAct 1).state.isComplete = true ∧
    (ApplyAction fleeState fleeAct 1).state.winner = some "player" ∧
    ¬ (ApplyAction fleeState fleeAct 1).state.winner = some "enemy" := by
  refine ⟨by decide, by decide, by decide, by decide, by decide⟩

/-- C2 (amended): when the flee roll succeeds, the resolution carries the
flee event, isComplete is true, the Turn Advancer is bypassed (round,
currentTurn, characters — hence cooldowns and defenses — and turnOrder all
unchanged), and winner is always "player", whichever side the fleeing
actor is on. -/
theorem applyAction_flee_success (s : State) (a : Action) (n : Int) (character : Character)
    (hk : a.kind = "Flee")
    (hc : GetCharacterByID s a.actor = some character)
    (hroll : firstD20 n + character.stats.speed ≥ 15) :
    (ApplyAction s a n).events = [{ type := "flee", actor := character.id }] ∧
    (ApplyAction s a n).state.isComplete = true ∧
    (ApplyAction s a n).state.winner = some "player" ∧
    (ApplyAction s a n).state.round = s.round ∧
    (ApplyAction s a n).state.currentTurn = s.currentTurn ∧
    (ApplyAction s a n).state.characters = s.characters ∧
    (ApplyAction s a n).state.turnOrder = s.turnOrder := by
  simp only [firstD20] at hroll
  simp [ApplyAction, handleFlee, deepCopyState, getActorID, hk, hc, validKinds, hroll]

theorem applyAction_flee_success_witness :
    (ApplyAction fleeState fleeActGob 1).events = [{ type := "flee", actor := "gob" }] ∧
    (ApplyAction fleeState fleeActGob 1).state.isComplete = true ∧
    (ApplyAction fleeState fleeActGob 1).state.winner = some "player" ∧
    (ApplyAction fleeState fleeActGob 1).state.round = fleeState.round ∧
    (ApplyAction fleeState fleeActGob 1).state.currentTurn = fleeState.currentTurn ∧
    (ApplyAction fleeState fleeActGob 1).state.characters = fleeState.characters ∧
    (ApplyAction fleeState fleeActGob 1).state.turnOrder = fleeState.turnOrder :=
  applyAction_flee_success fleeState fleeActGob 1 goblin rfl (by decide) (by decide)

end SmolDungeon

namespace SmolDungeon

/-! Character-lookup lemmas used to read hit points back out of a
resolution's state. -/

theorem advanceCharacter_id (c : Character) : (advanceCharacter c).id = c.id := by
  unfold advanceCharacter
  dsimp only
  split <;> rfl

theorem advanceCharacter_hp (c : Character) : (advanceCharacter c).stats.hp = c.stats.hp := by
  unfold advanceCharacter
  dsimp only
  split <;> rfl

theorem advanceCharacter_maxHp (c : Character) :
    (advanceCharacter c).stats.maxHp = c.stats.maxHp := by
  unfold advanceCharacter
  dsimp only
  split <;> rfl

theorem advanceTurn_characters (t : State) :
    (advanceTurn t).characters = t.characters.map advanceCharacter := by
  unfold advanceTurn
  dsimp only
  repeat' split
  all_goals rfl

theorem findChar_map_advance (cs : List Character) (i : ID) :
    findChar (cs.map advanceCharacter) i = (findChar cs i).map advanceCharacter := by
  induction cs with
  | nil => rfl
  | cons c rest ih =>
    simp only [List.map_cons, findChar, advanceCharacter_id]
    split
    · rfl
    · exact ih

theorem findChar_updateFirst (cs : List Character) (i : ID) (f : Character → Character)
    (hf : ∀ c, (f c).id = c.id) :
    findChar (updateFirst cs i f) i = (findChar cs i).map f := by
  induction cs with
  | nil => rfl
  | cons c rest ih =>
    simp only [updateFirst, findChar]
    split
    next h =>
      simp [findChar, hf, h]
    next h =>
      simp only [findChar, if_neg h]
      exact ih

/-- C4: for an Attack whose attacker, target and weapon all resolve (and a
data-model-conformant non-negative attack stat), the attack hits exactly
when the d20 roll plus the attacker's attack reaches the target's defense
plus 10; on a hit the damage is max(1, weapon.damage + attack/2 + d6 −
defense), the target's hp becomes max(0, hp − damage), exactly one damage
event with that amount and source is emitted, and a death event is emitted
iff the resulting hp is 0; on a miss no event is emitted. -/
theorem applyAction_attack (s : State) (a : Action) (n : Int)
    (attacker target : Character) (weapon : Weapon)
    (hk : a.kind = "Attack")
    (hatk : GetCharacterByID s a.attacker = some attacker)
    (htgt : GetCharacterByID s a.target = some target)
    (hw : findWeapon attacker.weapons a.weapon = some weapon)
    (hnn : 0 ≤ attacker.stats.attack) :
    (firstD20 n + attacker.stats.attack ≥ target.stats.defense + 10 →
      (ApplyAction s a n).events =
        [{ type := "damage", target := target.id,
           amount := max 1 (weapon.damage + attacker.stats.attack / 2 + d6AfterD20 n
             - target.stats.defense),
           source := attacker.id }] ++
        (if max 0 (target.stats.hp - max 1 (weapon.damage + attacker.stats.attack / 2
              + d6AfterD20 n - target.stats.defense)) = 0
         then [{ type := "death", target := target.id }] else []) ∧
      (GetCharacterByID (ApplyAction s a n).state a.target).map (fun c => c.stats.hp) =
        some (max 0 (target.stats.hp - max 1 (weapon.damage + attacker.stats.attack / 2
          + d6AfterD20 n - target.stats.defense)))) ∧
    (firstD20 n + attacker.stats.attack < target.stats.defense + 10 →
      (ApplyAction s a n).events = []) := by
  have hact : getActorID a = a.attacker := by simp [getActorID, hk]
  have hdiv : attacker.stats.attack.tdiv 2 = attacker.stats.attack / 2 :=
    Int.tdiv_eq_ediv hnn (by norm_num)
  have hred : ApplyAction s a n =
      handleAttack s a (NewSeededRNG n) [] ["Actor bypass: Direct mutation used"] := by
    simp [ApplyAction, deepCopyState, hact, hatk, hk, validKinds]
  constructor
  · intro hhit
    simp only [firstD20] at hhit
    simp only [d6AfterD20, hred, handleAttack, hatk, htgt, hw]
    simp only [hdiv]
    rw [if_pos hhit]
    constructor
    · split_ifs with h <;> simp [h]
    · dsimp only
      rw [GetCharacterByID, advanceTurn_characters]
      dsimp only
      rw [findChar_map_advance, findChar_updateFirst]
      · rw [show findChar s.characters a.target = some target from htgt]
        simp [advanceCharacter_hp]
      · intro c
        rfl
  · intro hmiss
    simp only [firstD20] at hmiss
    simp only [hred, handleAttack, hatk, htgt, hw]
    rw [if_neg (by omega :
      ¬ (NewSeededRNG n).RollD20.1 + attacker.stats.attack ≥ target.stats.defense + 10)]


theorem applyAction_attack_witness :
    (firstD20 1 + hero.stats.attack ≥ goblin.stats.defense + 10 →
      (ApplyAction baseState atkAct 1).events =
        [{ type := "damage", target := goblin.id,
           amount := max 1 (swordW.damage + hero.stats.attack / 2 + d6AfterD20 1
             - goblin.stats.defense),
           source := hero.id }] ++
        (if max 0 (goblin.stats.hp - max 1 (swordW.damage + hero.stats.attack / 2
              + d6AfterD20 1 - goblin.stats.defense)) = 0
         then [{ type := "death", target := goblin.id }] else []) ∧
      (GetCharacterByID (ApplyAction baseState atkAct 1).state atkAct.target).map
          (fun c => c.stats.hp) =
        some (max 0 (goblin.stats.hp - max 1 (swordW.damage + hero.stats.attack / 2
          + d6AfterD20 1 - goblin.stats.defense)))) ∧
    (firstD20 1 + hero.stats.attack < goblin.stats.defense + 10 →
      (ApplyAction baseState atkAct 1).events = []) :=
  applyAction_attack baseState atkAct 1 hero goblin swordW rfl (by decide) (by decide)
    (by decide) (by decide)

end SmolDungeon

namespace SmolDungeon

theorem lookup_setCooldown (m : List (String × Int)) (k : String) (v : Int) :
    lookupCooldown (setCooldown m k v) k = v := by
  induction m with
  | nil => simp [setCooldown, lookupCooldown]
  | cons p rest ih =>
    obtain ⟨k', v'⟩ := p
    by_cases h : k' = k
    · simp [setCooldown, lookupCooldown, h]
    · simp [setCooldown, lookupCooldown, h, ih]

theorem lookup_decayCooldowns (m : List (String × Int)) (k : String) :
    lookupCooldown (decayCooldowns m) k =
      if lookupCooldown m k > 0 then lookupCooldown m k - 1 else lookupCooldown m k := by
  induction m with
  | nil => simp [decayCooldowns, lookupCooldown]
  | cons p rest ih =>
    obtain ⟨k', v'⟩ := p
    simp only [decayCooldowns, List.map_cons]
    by_cases h : k' = k
    · by_cases hv : v' > 0
      · rw [if_pos hv]
        simp [lookupCooldown, h, hv]
      · rw [if_neg hv]
        simp [lookupCooldown, h, hv]
    · by_cases hv : v' > 0
      · rw [if_pos hv]
        simp only [lookupCooldown, if_neg h]
        simpa [decayCooldowns] using ih
      · rw [if_neg hv]
        simp only [lookupCooldown, if_neg h]
        simpa [decayCooldowns] using ih

theorem advanceCharacter_cooldowns (c : Character) :
    (advanceCharacter c).abilityCooldowns = decayCooldowns c.abilityCooldowns := by
  unfold advanceCharacter
  dsimp only
  split <;> rfl

theorem findChar_updateFirst_lookup (cs : List Character) (j i : ID)
    (f : Character → Character) (k : String)
    (hid : ∀ c, (f c).id = c.id)
    (hcdw : ∀ c, (f c).abilityCooldowns = c.abilityCooldowns) :
    (findChar (updateFirst cs j f) i).map (fun c => lookupCooldown c.abilityCooldowns k) =
      (findChar cs i).map (fun c => lookupCooldown c.abilityCooldowns k) := by
  induction cs with
  | nil => rfl
  | cons c rest ih =>
    simp only [updateFirst]
    by_cases hj : c.id = j
    · simp only [if_pos hj, findChar, hid]
      by_cases hi : c.id = i
      · simp [hi, hcdw]
      · simp [hi]
    · simp only [if_neg hj, findChar]
      by_cases hi : c.id = i
      · simp [hi]
      · simp only [if_neg hi]
        exact ih

theorem cooldown_advanceTurn (t : State) (i : ID) (k : String) (c : Character)
    (hc : GetCharacterByID t i = some c) :
    (GetCharacterByID (advanceTurn t) i).map (fun c => lookupCooldown c.abilityCooldowns k) =
      some (if lookupCooldown c.abilityCooldowns k > 0
            then lookupCooldown c.abilityCooldowns k - 1
            else lookupCooldown c.abilityCooldowns k) := by
  rw [GetCharacterByID, advanceTurn_characters, findChar_map_advance]
  rw [show findChar t.characters i = some c from hc]
  simp [advanceCharacter_cooldowns, lookup_decayCooldowns]

theorem cooldown_advanceTurnIter (N : Nat) (t : State) (i : ID) (k : String) (v : Int)
    (hv : 0 ≤ v)
    (h : (GetCharacterByID t i).map (fun c => lookupCooldown c.abilityCooldowns k) = some v) :
    (GetCharacterByID (advanceTurnIter N t) i).map
        (fun c => lookupCooldown c.abilityCooldowns k) = some (max 0 (v - N)) := by
  induction N generalizing t v with
  | zero =>
    rw [advanceTurnIter, h]
    congr 1
    omega
  | succ N ih =>
    rcases hgc : GetCharacterByID t i with _ | c
    · rw [hgc] at h; simp at h
    · rw [hgc] at h
      rw [show Option.map (fun c => lookupCooldown c.abilityCooldowns k) (some c)
            = some (lookupCooldown c.abilityCooldowns k) from rfl] at h
      injection h with h
      have step := cooldown_advanceTurn t i k c hgc
      rw [h] at step
      have hval : (if v > 0 then v - 1 else v) = max 0 (v - 1) := by
        split_ifs <;> omega
      rw [hval] at step
      rw [advanceTurnIter]
      have := ih (advanceTurn t) (max 0 (v - 1)) (le_max_left 0 (v - 1)) step
      rw [this]
      congr 1
      omega

end SmolDungeon

namespace SmolDungeon

theorem handleAbility_uses (s : State) (a : Action) (rng : SeededRNG)
    (es : List Event) (ls : List String) (character : Character) (ability : Ability)
    (hc : GetCharacterByID s a.actor = some character)
    (hab : findAbility character.abilities a.ability = some ability)
    (hcd : ¬ lookupCooldown character.abilityCooldowns ability.id > 0) :
    ∃ t, (handleAbility s a rng es ls).state = advanceTurn t ∧
      (GetCharacterByID t a.actor).map (fun c => lookupCooldown c.abilityCooldowns ability.id)
        = some ability.cooldown := by
  have hbase : (findChar (updateFirst s.characters a.actor
        (fun c => { c with
          abilityCooldowns := setCooldown c.abilityCooldowns ability.id ability.cooldown }))
        a.actor).map
        (fun c => lookupCooldown c.abilityCooldowns ability.id) = some ability.cooldown := by
    rw [findChar_updateFirst]
    · rw [show findChar s.characters a.actor = some character from hc]
      simp [lookup_setCooldown]
    · intro c
      rfl
  unfold handleAbility
  rw [hc]
  dsimp only
  rw [hab]
  dsimp only
  rw [if_neg hcd]
  dsimp only
  repeat' split
  all_goals refine ⟨_, rfl, ?_⟩
  all_goals first
    | exact hbase
    | (rw [GetCharacterByID]
       dsimp only
       rw [findChar_updateFirst_lookup]
       · exact hbase
       · intro c
         rfl
       · intro c
         rfl)

end SmolDungeon

namespace SmolDungeon


/-- C6 (amended): the handler sets abilityCooldowns[ability.id] to exactly
ability.cooldown, but the resolution then runs the Turn Advancer once, so
the returned state carries max(0, cooldown − 1); after N further Turn
Advancer invocations the entry is max(0, cooldown − 1 − N). -/
theorem ability_cooldown_after_use (s : State) (a : Action) (n : Int)
    (character : Character) (ability : Ability) (N : Nat)
    (hk : a.kind = "Ability")
    (hc : GetCharacterByID s a.actor = some character)
    (hab : findAbility character.abilities a.ability = some ability)
    (hcd : ¬ lookupCooldown character.abilityCooldowns ability.id > 0)
    (hnn : 0 ≤ ability.cooldown) :
    (GetCharacterByID (advanceTurnIter N (ApplyAction s a n).state) a.actor).map
        (fun c => lookupCooldown c.abilityCooldowns ability.id)
      = some (max 0 (ability.cooldown - 1 - N)) := by
  have hact : getActorID a = a.actor := by simp [getActorID, hk]
  have hred : ApplyAction s a n =
      handleAbility s a (NewSeededRNG n) [] ["Actor bypass: Direct mutation used"] := by
    simp [ApplyAction, deepCopyState, hact, hc, hk, validKinds]
  obtain ⟨t, hst, hlook⟩ := handleAbility_uses s a (NewSeededRNG n) []
    ["Actor bypass: Direct mutation used"] character ability hc hab hcd
  rw [hred, hst]
  rw [show advanceTurnIter N (advanceTurn t) = advanceTurnIter (N + 1) t from rfl]
  rw [cooldown_advanceTurnIter (N + 1) t a.actor ability.id ability.cooldown hnn hlook]
  congr 1
  push_cast
  omega

/-- C6 counterexample: using the hero's cooldown-3 ability, the state
returned by the resolution holds cooldown entry 2, not ability.cooldown =
3 as the claim states (the in-resolution Turn Advancer already decremented
it). -/
theorem ability_cooldown_cex :
    (GetCharacterByID (ApplyAction baseState abilityAct 0).state "hero").map
        (fun c => lookupCooldown c.abilityCooldowns "ab1") = some 2 ∧
    (findAbility hero.abilities "ab1").map (fun ab => ab.cooldown) = some 3 :=
  ⟨by decide, by decide⟩

theorem ability_cooldown_after_use_witness :
    (GetCharacterByID (advanceTurnIter 2 (ApplyAction baseState abilityAct 0).state)
        abilityAct.actor).map
        (fun c => lookupCooldown c.abilityCooldowns powerStrike.id)
      = some (max 0 (powerStrike.cooldown - 1 - 2)) :=
  ability_cooldown_after_use baseState abilityAct 0 hero powerStrike 2 rfl
    (by decide) (by decide) (by decide) (by decide)

end SmolDungeon

namespace SmolDungeon


theorem findChar_mem (cs : List Character) (i : ID) (c : Character)
    (h : findChar cs i = some c) : c ∈ cs := by
  induction cs with
  | nil => simp [findChar] at h
  | cons c0 rest ih =>
    rw [findChar] at h
    split at h
    · injection h with h
      subst h
      exact List.mem_cons_self _ _
    · exact List.mem_cons_of_mem _ (ih h)

theorem mem_updateFirst (cs : List Character) (i : ID) (f : Character → Character)
    (c' : Character) (h : c' ∈ updateFirst cs i f) :
    c' ∈ cs ∨ ∃ c, findChar cs i = some c ∧ c' = f c := by
  induction cs with
  | nil => simp [updateFirst] at h
  | cons c0 rest ih =>
    rw [updateFirst] at h
    split at h
    next hid =>
      rcases List.mem_cons.mp h with h | h
      · exact Or.inr ⟨c0, by simp [findChar, hid], h⟩
      · exact Or.inl (List.mem_cons_of_mem _ h)
    next hid =>
      rcases List.mem_cons.mp h with h | h
      · exact Or.inl (h ▸ List.mem_cons_self _ _)
      · rcases ih h with h | ⟨c, hc, rfl⟩
        · exact Or.inl (List.mem_cons_of_mem _ h)
        · exact Or.inr ⟨c, by simp [findChar, hid, hc], rfl⟩

theorem rollD6_ge_one (r : SeededRNG) : 1 ≤ (r.RollD6).1 := by
  unfold SeededRNG.RollD6 SeededRNG.Intn
  dsimp only
  have : (0:Int) ≤ ((rngStep r.state / 2 ^ 33) % 6 : Nat) := Int.natCast_nonneg _
  omega

theorem hpOk_advanceTurn (t : State) (hb : ∀ c ∈ t.characters, hpOk c) :
    ∀ c ∈ (advanceTurn t).characters, hpOk c := by
  intro c hc
  rw [advanceTurn_characters] at hc
  obtain ⟨c0, hc0, rfl⟩ := List.mem_map.mp hc
  have h := hb c0 hc0
  unfold hpOk at h ⊢
  rw [advanceCharacter_hp, advanceCharacter_maxHp]
  exact h

end SmolDungeon

namespace SmolDungeon

theorem handleAttack_hp (s : State) (a : Action) (rng : SeededRNG)
    (es : List Event) (ls : List String)
    (hb : ∀ c ∈ s.characters, hpOk c) :
    ∀ c ∈ (handleAttack s a rng es ls).state.characters, hpOk c := by
  unfold handleAttack
  split
  next attacker target hatk htgt =>
    dsimp only
    split
    next hhit =>
      apply hpOk_advanceTurn
      dsimp only
      intro c' hc'
      rcases mem_updateFirst _ _ _ _ hc' with h | ⟨c0, hfind, rfl⟩
      · exact hb _ h
      · have hct : c0 = target := by
          rw [GetCharacterByID] at htgt
          rw [htgt] at hfind
          injection hfind with h
          exact h.symm
        subst hct
        have hbt := hb c0 (findChar_mem _ _ _ (by rw [GetCharacterByID] at htgt; exact htgt))
        unfold hpOk at hbt ⊢
        dsimp only
        omega
    next hmiss =>
      exact hpOk_advanceTurn _ hb
  next =>
    exact hb

theorem handleDefend_hp (s : State) (a : Action) (rng : SeededRNG)
    (es : List Event) (ls : List String)
    (hb : ∀ c ∈ s.characters, hpOk c) :
    ∀ c ∈ (handleDefend s a rng es ls).state.characters, hpOk c := by
  unfold handleDefend
  split
  next => exact hb
  next character hchar =>
    dsimp only
    apply hpOk_advanceTurn
    dsimp only
    intro c' hc'
    rcases mem_updateFirst _ _ _ _ hc' with h | ⟨c0, hfind, rfl⟩
    · exact hb _ h
    · have hbt := hb c0 (findChar_mem _ _ _ hfind)
      unfold hpOk at hbt ⊢
      exact hbt

theorem handleFlee_hp (s : State) (a : Action) (rng : SeededRNG)
    (es : List Event) (ls : List String)
    (hb : ∀ c ∈ s.characters, hpOk c) :
    ∀ c ∈ (handleFlee s a rng es ls).state.characters, hpOk c := by
  unfold handleFlee
  split
  next => exact hb
  next character hchar =>
    dsimp only
    split
    · dsimp only
      exact hb
    · exact hpOk_advanceTurn _ hb

theorem handleUseItem_hp (s : State) (a : Action) (rng : SeededRNG)
    (es : List Event) (ls : List String)
    (hb : ∀ c ∈ s.characters, hpOk c) :
    ∀ c ∈ (handleUseItem s a rng es ls).state.characters, hpOk c := by
  unfold handleUseItem
  split
  next => exact hb
  next character hchar =>
    split
    next => exact hb
    next idx hidx =>
      dsimp only
      have hb1 : ∀ c ∈ updateFirst s.characters a.actor
          (fun c => { c with items := c.items.eraseIdx idx }), hpOk c := by
        intro c' hc'
        rcases mem_updateFirst _ _ _ _ hc' with h | ⟨c0, hfind, rfl⟩
        · exact hb _ h
        · exact hb c0 (findChar_mem _ _ _ hfind)
      split
      next =>
        apply hpOk_advanceTurn
        dsimp only
        intro c' hc'
        rcases mem_updateFirst _ _ _ _ hc' with h | ⟨c0, hfind, rfl⟩
        · exact hb1 _ h
        · have hbt := hb1 c0 (findChar_mem _ _ _ hfind)
          have hd6 := rollD6_ge_one rng
          unfold hpOk at hbt ⊢
          dsimp only
          omega
      next =>
        exact hpOk_advanceTurn _ hb1

end SmolDungeon

namespace SmolDungeon

theorem findAbility_mem (abs : List Ability) (i : ID) (ab : Ability)
    (h : findAbility abs i = some ab) : ab ∈ abs := by
  induction abs with
  | nil => simp [findAbility] at h
  | cons a0 rest ih =>
    rw [findAbility] at h
    split at h
    · injection h with h
      subst h
      exact List.mem_cons_self _ _
    · exact List.mem_cons_of_mem _ (ih h)

theorem handleAbility_hp (s : State) (a : Action) (rng : SeededRNG)
    (es : List Event) (ls : List String)
    (hb : ∀ c ∈ s.characters, hpOk c)
    (hpw : ∀ c ∈ s.characters, ∀ ab ∈ c.abilities, 0 ≤ ab.power) :
    ∀ c ∈ (handleAbility s a rng es ls).state.characters, hpOk c := by
  unfold handleAbility
  split
  next => exact hb
  next character hchar =>
    split
    next => exact hb
    next ability habil =>
      dsimp only
      split
      next => exact hb
      next hcd =>
        dsimp only
        have hpow : 0 ≤ ability.power :=
          hpw character (findChar_mem _ _ _ hchar) ability (findAbility_mem _ _ _ habil)
        have hd6 := rollD6_ge_one rng
        have hb1 : ∀ c' ∈ updateFirst s.characters a.actor
            (fun c => { c with
              abilityCooldowns := setCooldown c.abilityCooldowns ability.id ability.cooldown }),
            hpOk c' := by
          intro c' hc'
          rcases mem_updateFirst _ _ _ _ hc' with h | ⟨c0, hfind, rfl⟩
          · exact hb _ h
          · exact hb c0 (findChar_mem _ _ _ hfind)
        split
        next heff =>
          split
          next htne =>
            split
            next target heq =>
              dsimp only
              apply hpOk_advanceTurn
              dsimp only
              intro c' hc'
              rcases mem_updateFirst _ _ _ _ hc' with h | ⟨c0, hfind, rfl⟩
              · exact hb1 _ h
              · have hct : c0 = target := by
                  rw [GetCharacterByID] at heq
                  dsimp only at heq
                  rw [heq] at hfind
                  injection hfind with h
                  exact h.symm
                subst hct
                have hbt := hb1 c0 (findChar_mem _ _ _ hfind)
                unfold hpOk at hbt ⊢
                dsimp only
                omega
            next heq =>
              dsimp only
              apply hpOk_advanceTurn
              dsimp only
              exact hb1
          next htne =>
            dsimp only
            apply hpOk_advanceTurn
            dsimp only
            exact hb1
        next heff =>
          split
          next heff2 =>
            dsimp only
            apply hpOk_advanceTurn
            dsimp only
            intro c' hc'
            rcases mem_updateFirst _ _ _ _ hc' with h | ⟨c0, hfind, rfl⟩
            · exact hb1 _ h
            · have hbt := hb1 c0 (findChar_mem _ _ _ hfind)
              unfold hpOk at hbt ⊢
              dsimp only
              omega
          next heff2 =>
            dsimp only
            apply hpOk_advanceTurn
            dsimp only
            exact hb1

end SmolDungeon

namespace SmolDungeon

/-- C3 (amended): for every state in which every character satisfies
0 ≤ hp ≤ maxHp and every ability carried by any character has non-negative
power, the state returned by ApplyAction for any action and seed also
satisfies 0 ≤ hp ≤ maxHp for every character: damage clamps at 0 from
below, and ability heals and Potion heals clamp at maxHp from above. -/
theorem hp_bounds_preserved (s : State) (a : Action) (n : Int)
    (hb : ∀ c ∈ s.characters, hpOk c)
    (hpw : ∀ c ∈ s.characters, ∀ ab ∈ c.abilities, 0 ≤ ab.power) :
    ∀ c ∈ (ApplyAction s a n).state.characters, hpOk c := by
  unfold ApplyAction
  dsimp only [deepCopyState]
  repeat' split
  all_goals first
    | exact hb
    | exact handleAttack_hp _ _ _ _ _ hb
    | exact handleDefend_hp _ _ _ _ _ hb
    | exact handleAbility_hp _ _ _ _ _ hb hpw
    | exact handleUseItem_hp _ _ _ _ _ hb
    | exact handleFlee_hp _ _ _ _ _ hb

/-- C3 counterexample: a heal ability of power −100 drives its caster's
hp to −94 even though the input state satisfied the hp bounds, so the
claim fails without a non-negative-power hypothesis (the heal branch only
clamps from above with min(maxHp, ·)). -/
theorem hp_bounds_cex :
    hpOk cursedHealer ∧
    cursedState.characters = [cursedHealer] ∧
    ((GetCharacterByID (ApplyAction cursedState cursedAct 0).state "cur").map
      (fun c => c.stats.hp)).getD 0 < 0 :=
  ⟨by decide, by decide, by decide⟩

theorem hp_bounds_preserved_witness :
    ((ApplyAction baseState atkAct 1).state.characters.all
      (fun c => decide (0 ≤ c.stats.hp) && decide (c.stats.hp ≤ c.stats.maxHp))) = true := by
  have h := hp_bounds_preserved baseState atkAct 1 (by decide) (by decide)
  rw [List.all_eq_true]
  intro c hc
  have := h c hc
  unfold hpOk at this
  simp [this.1, this.2]

end SmolDungeon

namespace SmolDungeon

theorem advanceTurn_step (t : State) (hic : t.isComplete = false)
    (h0 : 0 ≤ t.currentTurn) (h1 : t.currentTurn < (t.turnOrder.length : Int))
    (hn : 0 < t.turnOrder.length) :
    (advanceTurn t).isComplete = true ∨
    ((advanceTurn t).isComplete = false ∧
     (advanceTurn t).turnOrder = t.turnOrder ∧
     0 ≤ (advanceTurn t).currentTurn ∧
     (advanceTurn t).currentTurn < (t.turnOrder.length : Int) ∧
     (advanceTurn t).round * (t.turnOrder.length : Int) + (advanceTurn t).currentTurn
       = t.round * (t.turnOrder.length : Int) + t.currentTurn + 1) := by
  have hmod : (t.currentTurn + 1).tmod (t.turnOrder.length : Int)
      = (t.currentTurn + 1) % (t.turnOrder.length : Int) :=
    Int.tmod_eq_emod (by omega) (by positivity)
  unfold advanceTurn
  dsimp only [deepCopyState]
  split
  next => left; rfl
  next =>
    split
    next => left; rfl
    next =>
      rw [show ({ t with characters := t.characters.map advanceCharacter } : State).isComplete
            = t.isComplete from rfl]
      rw [hic]
      simp only [Bool.false_eq_true, if_false]
      rw [hmod]
      right
      rcases lt_or_eq_of_le (show t.currentTurn + 1 ≤ (t.turnOrder.length : Int) by omega)
        with hlt | heq
      · have hct : (t.currentTurn + 1) % (t.turnOrder.length : Int) = t.currentTurn + 1 :=
          Int.emod_eq_of_lt (by omega) hlt
        rw [hct]
        rw [if_neg (by omega : ¬ t.currentTurn + 1 = 0)]
        exact ⟨by trivial, by trivial, by omega, by omega, by ring⟩
      · have hct : (t.currentTurn + 1) % (t.turnOrder.length : Int) = 0 := by
          rw [heq, Int.emod_self]
        rw [hct]
        rw [if_pos rfl]
        refine ⟨by trivial, by trivial, by omega, by omega, ?_⟩
        rw [show (t.round + 1) * (t.turnOrder.length : Int)
              = t.round * (t.turnOrder.length : Int) + (t.turnOrder.length : Int) by ring]
        omega

end SmolDungeon

namespace SmolDungeon

theorem handleAttack_struct (s : State) (a : Action) (rng : SeededRNG)
    (es : List Event) (ls : List String) :
    (handleAttack s a rng es ls).state = s ∨
    (handleAttack s a rng es ls).state.isComplete = true ∨
    ∃ t : State, (handleAttack s a rng es ls).state = advanceTurn t ∧
      t.round = s.round ∧ t.currentTurn = s.currentTurn ∧
      t.turnOrder = s.turnOrder ∧ t.isComplete = s.isComplete := by
  unfold handleAttack
  dsimp only
  repeat' split
  all_goals first
    | (left; rfl)
    | (right; left; rfl)
    | (right; right; exact ⟨_, rfl, rfl, rfl, rfl, rfl⟩)

theorem handleDefend_struct (s : State) (a : Action) (rng : SeededRNG)
    (es : List Event) (ls : List String) :
    (handleDefend s a rng es ls).state = s ∨
    (handleDefend s a rng es ls).state.isComplete = true ∨
    ∃ t : State, (handleDefend s a rng es ls).state = advanceTurn t ∧
      t.round = s.round ∧ t.currentTurn = s.currentTurn ∧
      t.turnOrder = s.turnOrder ∧ t.isComplete = s.isComplete := by
  unfold handleDefend
  dsimp only
  repeat' split
  all_goals first
    | (left; rfl)
    | (right; left; rfl)
    | (right; right; exact ⟨_, rfl, rfl, rfl, rfl, rfl⟩)

theorem handleAbility_struct (s : State) (a : Action) (rng : SeededRNG)
    (es : List Event) (ls : List String) :
    (handleAbility s a rng es ls).state = s ∨
    (handleAbility s a rng es ls).state.isComplete = true ∨
    ∃ t : State, (handleAbility s a rng es ls).state = advanceTurn t ∧
      t.round = s.round ∧ t.currentTurn = s.currentTurn ∧
      t.turnOrder = s.turnOrder ∧ t.isComplete = s.isComplete := by
  unfold handleAbility
  dsimp only
  repeat' split
  all_goals first
    | (left; rfl)
    | (right; left; rfl)
    | (right; right; exact ⟨_, rfl, rfl, rfl, rfl, rfl⟩)

theorem handleUseItem_struct (s : State) (a : Action) (rng : SeededRNG)
    (es : List Event) (ls : List String) :
    (handleUseItem s a rng es ls).state = s ∨
    (handleUseItem s a rng es ls).state.isComplete = true ∨
    ∃ t : State, (handleUseItem s a rng es ls).state = advanceTurn t ∧
      t.round = s.round ∧ t.currentTurn = s.currentTurn ∧
      t.turnOrder = s.turnOrder ∧ t.isComplete = s.isComplete := by
  unfold handleUseItem
  dsimp only
  repeat' split
  all_goals first
    | (left; rfl)
    | (right; left; rfl)
    | (right; right; exact ⟨_, rfl, rfl, rfl, rfl, rfl⟩)

theorem handleFlee_struct (s : State) (a : Action) (rng : SeededRNG)
    (es : List Event) (ls : List String) :
    (handleFlee s a rng es ls).state = s ∨
    (handleFlee s a rng es ls).state.isComplete = true ∨
    ∃ t : State, (handleFlee s a rng es ls).state = advanceTurn t ∧
      t.round = s.round ∧ t.currentTurn = s.currentTurn ∧
      t.turnOrder = s.turnOrder ∧ t.isComplete = s.isComplete := by
  unfold handleFlee
  dsimp only
  repeat' split
  all_goals first
    | (left; rfl)
    | (right; left; rfl)
    | (right; right; exact ⟨_, rfl, rfl, rfl, rfl, rfl⟩)

theorem applyAction_struct (s : State) (a : Action) (n : Int) :
    (ApplyAction s a n).state = s ∨
    (ApplyAction s a n).state.isComplete = true ∨
    ∃ t : State, (ApplyAction s a n).state = advanceTurn t ∧
      t.round = s.round ∧ t.currentTurn = s.currentTurn ∧
      t.turnOrder = s.turnOrder ∧ t.isComplete = s.isComplete := by
  unfold ApplyAction
  dsimp only [deepCopyState]
  repeat' split
  all_goals first
    | (left; rfl)
    | exact handleAttack_struct s a (NewSeededRNG n) [] ["Actor bypass: Direct mutation used"]
    | exact handleDefend_struct s a (NewSeededRNG n) [] ["Actor bypass: Direct mutation used"]
    | exact handleAbility_struct s a (NewSeededRNG n) [] ["Actor bypass: Direct mutation used"]
    | exact handleUseItem_struct s a (NewSeededRNG n) [] ["Actor bypass: Direct mutation used"]
    | exact handleFlee_struct s a (NewSeededRNG n) [] ["Actor bypass: Direct mutation used"]

end SmolDungeon

namespace SmolDungeon

/-- C8 (amended): from an initial state (round 1, non-empty turnOrder,
0 ≤ currentTurn < len(turnOrder), not complete), driving the encounter
with any fixed policy whose chosen actions are never soft-failed while
combat is live (each live step changes the state, i.e. runs the Turn
Advancer or ends combat) reaches a state satisfying the Combat-End
Predicate within 19·len(turnOrder) actions — the round counter passes the
hard cap 20 because it advances by one on every full pass through
turnOrder. -/
theorem bounded_termination (pol : State → Action × Int) (s0 : State)
    (hr : s0.round = 1) (hic : s0.isComplete = false)
    (hc0 : 0 ≤ s0.currentTurn) (hc1 : s0.currentTurn < (s0.turnOrder.length : Int))
    (hn : 0 < s0.turnOrder.length)
    (hprog : ∀ k, k < 19 * s0.turnOrder.length →
      CheckCombatEnd (drive pol s0 k) = false → stepPol pol (drive pol s0 k) ≠ drive pol s0 k) :
    ∃ k, k ≤ 19 * s0.turnOrder.length ∧ CheckCombatEnd (drive pol s0 k) = true := by
  by_contra hno
  push_neg at hno
  have hno' : ∀ k, k ≤ 19 * s0.turnOrder.length → CheckCombatEnd (drive pol s0 k) = false := by
    intro k hk
    have := hno k hk
    cases hch : CheckCombatEnd (drive pol s0 k)
    · rfl
    · exact absurd hch this
  have inv : ∀ k, k ≤ 19 * s0.turnOrder.length →
      (drive pol s0 k).isComplete = false ∧
      (drive pol s0 k).turnOrder = s0.turnOrder ∧
      0 ≤ (drive pol s0 k).currentTurn ∧
      (drive pol s0 k).currentTurn < (s0.turnOrder.length : Int) ∧
      (drive pol s0 k).round * (s0.turnOrder.length : Int) + (drive pol s0 k).currentTurn
        = (s0.turnOrder.length : Int) + s0.currentTurn + k := by
    intro k
    induction k with
    | zero =>
      intro _
      refine ⟨hic, rfl, hc0, hc1, ?_⟩
      rw [show drive pol s0 0 = s0 from rfl, hr]
      push_cast
      ring
    | succ k ih =>
      intro hk
      have hk' : k ≤ 19 * s0.turnOrder.length := by omega
      obtain ⟨hick, htok, h0k, h1k, hmuk⟩ := ih hk'
      have hnck : CheckCombatEnd (drive pol s0 k) = false := hno' k hk'
      have hstep := hprog k (by omega) hnck
      have hstruct := applyAction_struct (drive pol s0 k)
        (pol (drive pol s0 k)).1 (pol (drive pol s0 k)).2
      have hdrive : drive pol s0 (k + 1) =
          (ApplyAction (drive pol s0 k) (pol (drive pol s0 k)).1 (pol (drive pol s0 k)).2).state :=
        rfl
      rcases hstruct with h | h | ⟨t, hst, htr, htc, htt, hti⟩
      · exact absurd h hstep
      · exfalso
        have : CheckCombatEnd (drive pol s0 (k + 1)) = true := by
          rw [hdrive]
          unfold CheckCombatEnd
          rw [h]
          rfl
        exact absurd this (by simpa using hno (k + 1) hk)
      · have hlen : t.turnOrder.length = s0.turnOrder.length := by rw [htt, htok]
        have hstept := advanceTurn_step t (by rw [hti]; exact hick)
          (by rw [htc]; exact h0k)
          (by rw [htc, htt, htok]; exact h1k)
          (by rw [hlen]; exact hn)
        have hdk : drive pol s0 (k + 1) = advanceTurn t := by rw [hdrive, hst]
        rcases hstept with hcomp | ⟨hic2, hto2, h02, h12, hmu2⟩
        · exfalso
          have : CheckCombatEnd (drive pol s0 (k + 1)) = true := by
            rw [hdk]
            unfold CheckCombatEnd
            rw [hcomp]
            rfl
          exact absurd this (by simpa using hno (k + 1) hk)
        · rw [hlen] at h12 hmu2
          rw [htr, htc] at hmu2
          refine ⟨by rw [hdk]; exact hic2,
                  by rw [hdk, hto2, htt, htok],
                  by rw [hdk]; exact h02,
                  by rw [hdk]; exact h12, ?_⟩
          rw [hdk]
          push_cast
          push_cast at hmuk
          linarith [hmuk, hmu2]
  obtain ⟨hicK, htoK, h0K, h1K, hmuK⟩ := inv (19 * s0.turnOrder.length) le_rfl
  have hncK := hno' (19 * s0.turnOrder.length) le_rfl
  have hrK : (drive pol s0 (19 * s0.turnOrder.length)).round < 20 := by
    unfold CheckCombatEnd at hncK
    simp only [Bool.or_eq_false_iff, decide_eq_false_iff_not] at hncK
    omega
  have hb : (drive pol s0 (19 * s0.turnOrder.length)).round * (s0.turnOrder.length : Int)
      ≤ 19 * (s0.turnOrder.length : Int) :=
    mul_le_mul_of_nonneg_right (by omega) (by positivity)
  push_cast at hmuK
  linarith [hmuK, hb, hc0, h0K, h1K]

end SmolDungeon

namespace SmolDungeon

/-- C8 counterexample: the fixed policy that always submits an action
naming an absent actor soft-fails forever: the step function fixes the
state (shown iterated 50 times), so the Combat-End Predicate, false at the
start, never becomes true — the claim fails for arbitrary fixed
policies. -/
theorem bounded_termination_cex :
    CheckCombatEnd baseState = false ∧
    stepPol stallPolicy baseState = baseState ∧
    drive stallPolicy baseState 50 = baseState :=
  ⟨by decide, by decide, by decide⟩

theorem bounded_termination_witness :
    ∃ k, k ≤ 19 * soloState.turnOrder.length ∧
      CheckCombatEnd (drive defendPolicy soloState k) = true :=
  bounded_termination defendPolicy soloState rfl rfl (by decide) (by decide) (by decide)
    (by decide)

end SmolDungeon

namespace SmolDungeon

theorem heapExt_refl (h : Heap) : HeapExt h h :=
  ⟨le_rfl, List.take_length h⟩

theorem heapExt_trans {h0 h1 h2 : Heap} (a : HeapExt h0 h1) (b : HeapExt h1 h2) :
    HeapExt h0 h2 := by
  obtain ⟨al, at'⟩ := a
  obtain ⟨bl, bt⟩ := b
  refine ⟨al.trans bl, ?_⟩
  have : h2.take h0.length = (h2.take h1.length).take h0.length := by
    rw [List.take_take, min_eq_left al]
  rw [this, bt, at']

theorem heapExt_append (h : Heap) (l : List Character) : HeapExt h (h ++ l) :=
  ⟨by simp, List.take_left h l⟩

theorem take_set_of_le (h : Heap) (ad : Nat) (c : Character) (m : Nat) (hm : m ≤ ad) :
    (h.set ad c).take m = h.take m := by
  induction h generalizing ad m with
  | nil => simp
  | cons x t ih =>
    cases ad with
    | zero =>
      have : m = 0 := Nat.le_zero.mp hm
      simp [this]
    | succ ad =>
      cases m with
      | zero => simp
      | succ m =>
        simp only [List.set_cons_succ, List.take_succ_cons]
        rw [ih ad m (Nat.succ_le_succ_iff.mp hm)]

theorem heapExt_write {h0 h : Heap} (he : HeapExt h0 h) (ad : Nat) (c : Character)
    (had : h0.length ≤ ad) : HeapExt h0 (hwrite h ad c) := by
  obtain ⟨hl, ht⟩ := he
  refine ⟨by simpa [hwrite] using hl, ?_⟩
  rw [hwrite, take_set_of_le h ad c h0.length had, ht]

theorem allocList_heap (h : Heap) (cs : List Character) :
    (allocList h cs).1 = h ++ cs := by
  induction cs generalizing h with
  | nil => simp [allocList]
  | cons c rest ih =>
    rw [allocList]
    dsimp only
    rw [ih (h ++ [c])]
    simp

theorem allocList_addrs (h : Heap) (cs : List Character) :
    ∀ ad ∈ (allocList h cs).2, h.length ≤ ad := by
  induction cs generalizing h with
  | nil => simp [allocList]
  | cons c rest ih =>
    rw [allocList]
    dsimp only
    intro ad had
    rcases List.mem_cons.mp had with rfl | had
    · exact le_rfl
    · have := ih (h ++ [c]) ad had
      simp at this
      omega

theorem deepCopyStateH_ext (h : Heap) (s : HState) :
    HeapExt h (deepCopyStateH h s).1 ∧ FreshFor h.length (deepCopyStateH h s).2 := by
  unfold deepCopyStateH
  dsimp only
  constructor
  · rw [allocList_heap]
    exact heapExt_append _ _
  · intro ad had
    exact allocList_addrs h _ ad had

theorem decayAll_ext {h0 h : Heap} (ads : List Nat) (hads : ∀ ad ∈ ads, h0.length ≤ ad)
    (he : HeapExt h0 h) : HeapExt h0 (decayAll h ads) := by
  induction ads generalizing h with
  | nil => exact he
  | cons ad rest ih =>
    rw [decayAll]
    exact ih (fun x hx => hads x (List.mem_cons_of_mem _ hx))
      (heapExt_write he ad _ (hads ad (List.mem_cons_self _ _)))

theorem advanceTurnH_ext {h0 h : Heap} (s : HState) (he : HeapExt h0 h) :
    HeapExt h0 (advanceTurnH h s).1 := by
  unfold advanceTurnH
  dsimp only
  have hd := deepCopyStateH_ext h s
  have hext2 : HeapExt h0 (deepCopyStateH h s).1 := heapExt_trans he hd.1
  have hfresh : ∀ ad ∈ (deepCopyStateH h s).2.characters, h0.length ≤ ad :=
    fun ad had => he.1.trans (hd.2 ad had)
  have hdec : HeapExt h0 (decayAll (deepCopyStateH h s).1 (deepCopyStateH h s).2.characters) :=
    decayAll_ext _ hfresh hext2
  repeat' split
  all_goals exact hdec

end SmolDungeon

namespace SmolDungeon

theorem handleAttackH_ext {h0 : Heap} (h : Heap) (s : HState) (a : Action) (rng : SeededRNG)
    (es : List Event) (ls : List String)
    (hf : FreshFor h0.length s) (he : HeapExt h0 h) :
    HeapExt h0 (handleAttackH h s a rng es ls).1 := by
  unfold handleAttackH
  split
  next aad tad hatk htgt =>
    dsimp only
    have htmem : h0.length ≤ tad := hf tad (List.mem_of_find?_eq_some htgt)
    split
    next => exact advanceTurnH_ext _ (heapExt_write he _ _ htmem)
    next => exact advanceTurnH_ext _ he
  next => exact he

theorem handleDefendH_ext {h0 : Heap} (h : Heap) (s : HState) (a : Action) (rng : SeededRNG)
    (es : List Event) (ls : List String)
    (hf : FreshFor h0.length s) (he : HeapExt h0 h) :
    HeapExt h0 (handleDefendH h s a rng es ls).1 := by
  unfold handleDefendH
  split
  next => exact he
  next aad hfound =>
    dsimp only
    exact advanceTurnH_ext _
      (heapExt_write he _ _ (hf aad (List.mem_of_find?_eq_some hfound)))

theorem handleAbilityH_ext {h0 : Heap} (h : Heap) (s : HState) (a : Action) (rng : SeededRNG)
    (es : List Event) (ls : List String)
    (hf : FreshFor h0.length s) (he : HeapExt h0 h) :
    HeapExt h0 (handleAbilityH h s a rng es ls).1 := by
  unfold handleAbilityH
  split
  next => exact he
  next aad hfound =>
    have haad : h0.length ≤ aad := hf aad (List.mem_of_find?_eq_some hfound)
    dsimp only
    split
    next => exact he
    next ability hab =>
      split
      next => exact he
      next =>
        have he1 : HeapExt h0 (hwrite h aad { hread h aad with
            abilityCooldowns := setCooldown (hread h aad).abilityCooldowns ability.id
              ability.cooldown }) := heapExt_write he _ _ haad
        split
        next heff =>
          split
          next htne =>
            split
            next tad htgt =>
              dsimp only
              exact advanceTurnH_ext _
                (heapExt_write he1 _ _ (hf tad (List.mem_of_find?_eq_some htgt)))
            next => exact advanceTurnH_ext _ he1
          next => exact advanceTurnH_ext _ he1
        next =>
          split
          next heff2 =>
            dsimp only
            exact advanceTurnH_ext _ (heapExt_write he1 _ _ haad)
          next => exact advanceTurnH_ext _ he1

theorem handleUseItemH_ext {h0 : Heap} (h : Heap) (s : HState) (a : Action) (rng : SeededRNG)
    (es : List Event) (ls : List String)
    (hf : FreshFor h0.length s) (he : HeapExt h0 h) :
    HeapExt h0 (handleUseItemH h s a rng es ls).1 := by
  unfold handleUseItemH
  split
  next => exact he
  next aad hfound =>
    have haad : h0.length ≤ aad := hf aad (List.mem_of_find?_eq_some hfound)
    dsimp only
    split
    next => exact he
    next idx hidx =>
      have he1 : HeapExt h0 (hwrite h aad { hread h aad with
          items := (hread h aad).items.eraseIdx idx }) := heapExt_write he _ _ haad
      split
      next =>
        exact advanceTurnH_ext _ (heapExt_write he1 _ _ haad)
      next =>
        exact advanceTurnH_ext _ he1

theorem handleFleeH_ext {h0 : Heap} (h : Heap) (s : HState) (a : Action) (rng : SeededRNG)
    (es : List Event) (ls : List String)
    (hf : FreshFor h0.length s) (he : HeapExt h0 h) :
    HeapExt h0 (handleFleeH h s a rng es ls).1 := by
  unfold handleFleeH
  split
  next => exact he
  next aad hfound =>
    dsimp only
    split
    next => exact he
    next => exact advanceTurnH_ext _ he

theorem hread_ext {h0 h : Heap} (he : HeapExt h0 h) {ad : Nat} (had : ad < h0.length) :
    hread h ad = hread h0 ad := by
  unfold hread
  have h1 : (h.take h0.length)[ad]? = h[ad]? := by
    rw [List.getElem?_take, if_pos had]
  rw [← h1, he.2]

/-- C9: on the heap model of the resolver — where the caller's state holds
cell addresses of a heap and every Go pointer write is an explicit cell
write — ApplyAction never writes any cell the input state can reach: the
input heap survives as a prefix, and re-reading the input state's
characters after the call yields exactly the values read before, so
callers may retain previously returned State values unchanged.  Every
handler writes only to the fresh cells allocated by the deep copy. -/
theorem applyActionH_frame (h : Heap) (s : HState) (a : Action) (n : Int)
    (hv : ∀ ad ∈ s.characters, ad < h.length) :
    (ApplyActionH h s a n).1.take h.length = h ∧
    s.characters.map (hread (ApplyActionH h s a n).1) = s.characters.map (hread h) := by
  have hd := deepCopyStateH_ext h s
  have hext : HeapExt h (ApplyActionH h s a n).1 := by
    unfold ApplyActionH
    dsimp only
    repeat' split
    all_goals first
      | exact hd.1
      | exact handleAttackH_ext _ _ _ _ _ _ hd.2 hd.1
      | exact handleDefendH_ext _ _ _ _ _ _ hd.2 hd.1
      | exact handleAbilityH_ext _ _ _ _ _ _ hd.2 hd.1
      | exact handleUseItemH_ext _ _ _ _ _ _ hd.2 hd.1
      | exact handleFleeH_ext _ _ _ _ _ _ hd.2 hd.1
  refine ⟨hext.2, ?_⟩
  apply List.map_congr_left
  intro ad had
  exact hread_ext hext (hv ad had)

end SmolDungeon

namespace SmolDungeon


theorem applyActionH_frame_witness :
    (ApplyActionH heapFix hstateFix atkAct 1).1.take heapFix.length = heapFix ∧
    hstateFix.characters.map (hread (ApplyActionH heapFix hstateFix atkAct 1).1)
      = hstateFix.characters.map (hread heapFix) :=
  applyActionH_frame heapFix hstateFix atkAct 1 (by decide)

end SmolDungeon
